import Mathlib

/-!
Verification of the inventory-analysis ETL (Next.js + Postgres).

Shallow embedding of:
  - src/pages/api/run-etl.js   (ETL HTTP handler: paginated fetches, upserts, metrics)
  - src/worker/etl_worker.js   (worker variant of the same ETL)
  - src/pages/api/skus-live.js (read-time trend classification)
  - src/pages/api/webhooks.js  (webhook order-line ingestion)
  - src/db/migrations/001_init.sql (schema / unique constraints)

JavaScript numbers are modelled as rationals (all arithmetic here is sums of
integers and a few divisions, which the program never feeds anything
irrational). Timestamps and calendar days are modelled as integers (day
index); the processes run with TZ = UTC, so the local-day formatting and
the SQL date casts agree on one day index per timestamp.
-/

namespace InventoryAnalysis

/-! ## Database rows (001_init.sql plus the columns the ETL writes) -/

/-- A row of `orders_lineitems`: order_id, sku, quantity, price, created_at
(kept at day granularity, the only granularity the metrics read). -/
structure LineItemRow where
  order_id : String
  sku : String
  quantity : ℤ
  price : ℚ
  created_day : ℤ
  deriving Repr, DecidableEq

/-- A row of `inventory_levels`. -/
structure InvRow where
  sku : String
  location_id : String
  available : ℤ
  timestamp : ℤ
  deriving Repr, DecidableEq

/-- A row of `products` with the columns run-etl.js writes. -/
structure PRow where
  sku : String
  title : String
  product_id : String
  variant_id : Option String
  inventory_item_id : Option String
  image : Option String
  shopify_handle : String
  retail_price : ℚ
  created_at : ℤ
  deriving Repr, DecidableEq

/-! ## Metrics computation (run-etl.js lines 248-277, etl_worker.js computeMetrics) -/

/-- One day's summed order quantity for a SKU: the SQL
`SELECT created_at::date AS day, SUM(quantity) ... WHERE sku=$1 ... GROUP BY day`
read through the JS map `daily[d] || 0` (a day with no rows reads as 0).
The SQL window `created_at >= CURRENT_DATE - INTERVAL '30 days'` only
discards days that the 30-slot loop below never looks up, so grouping by
exact day is the same function on every day the code reads. -/
def dailyQty (items : List LineItemRow) (sku : String) (d : ℤ) : ℚ :=
  (((items.filter (fun li => decide (li.sku = sku ∧ li.created_day = d))).map
    (fun li => (li.quantity : ℚ))).foldl (· + ·) 0)

/-- The 30-element daily-sales array (oldest to newest):
`for (let i = 29; i >= 0; i--) days.push(daily[today - i] || 0)`. -/
def salesSeries (items : List LineItemRow) (sku : String) (today : ℤ) : List ℚ :=
  (List.range 30).map (fun j : ℕ => dailyQty items sku (today - 29 + (j : ℤ)))

/-- The metrics_daily row computed per SKU. -/
structure Metrics where
  daily_sales : ℚ
  rolling7 : ℚ
  rolling30 : ℚ
  current_stock : ℚ
  days_of_cover : Option ℚ
  deriving Repr, DecidableEq

/-- Per-SKU metrics computation, as in run-etl.js lines 248-272 /
etl_worker.js computeMetrics: build the 30-day array, average it, average
its `slice(-7)`, sum available stock over the SKU's inventory rows
(`SUM(available)`, NULL coalesced to 0), and guard the cover division. -/
def computeSkuMetrics (items : List LineItemRow) (inv : List InvRow)
    (sku : String) (today : ℤ) : Metrics :=
  let days := salesSeries items sku today
  let sum30 := days.foldl (· + ·) 0
  let avg30 := sum30 / 30
  let sum7 := (days.drop 23).foldl (· + ·) 0
  let avg7 := sum7 / 7
  let todaySales := dailyQty items sku today
  let current_stock :=
    ((inv.filter (fun r => decide (r.sku = sku))).map
      (fun r => (r.available : ℚ))).foldl (· + ·) 0
  let days_of_cover : Option ℚ := if avg30 > 0 then some (current_stock / avg30) else none
  ⟨todaySales, avg7, avg30, current_stock, days_of_cover⟩

/-- The restock-alert Slack message fields (SKU, current stock, 30-day average). -/
structure Alert where
  sku : String
  stock : ℚ
  avg30 : ℚ
  deriving Repr, DecidableEq

/-- The alert decision and payload of run-etl.js lines 274-276:
`if (days_of_cover !== null && days_of_cover <= 14) postSlack(sku, stock, avg30)`. -/
def alertOf (sku : String) (m : Metrics) : Option Alert :=
  match m.days_of_cover with
  | some c => if c ≤ 14 then some ⟨sku, m.current_stock, m.rolling30⟩ else none
  | none => none

/-! Spec-side definitions for the rolling averages, following the spec's words:
"rolling30 = arithmetic mean of all 30 elements", where the elements are the
daily summed order quantities of the trailing 30 calendar days. -/

/-- Modelled from the spec: mean of the daily sums of the 30 trailing days
(day offsets 0..29 back from today). -/
def specRolling30 (items : List LineItemRow) (sku : String) (today : ℤ) : ℚ :=
  (∑ i in Finset.range 30, dailyQty items sku (today - i)) / 30

/-- Modelled from the spec: mean of the daily sums of the 7 most recent days. -/
def specRolling7 (items : List LineItemRow) (sku : String) (today : ℤ) : ℚ :=
  (∑ i in Finset.range 7, dailyQty items sku (today - i)) / 7

/-- Scenario data for spec §8: SKU "A-1" sells 2/day on each of the last 7
days and nothing on the 23 days before. -/
def demoItems : List LineItemRow :=
  (List.range 7).map (fun i => ⟨"o", "A-1", 2, 0, -(i : ℤ)⟩)

/-! ### Helper lemmas -/

lemma foldl_add_eq_sum (l : List ℚ) (a : ℚ) : l.foldl (· + ·) a = a + l.sum := by
  induction l generalizing a with
  | nil => simp
  | cons x t ih => simp [List.foldl_cons, ih, add_assoc]

lemma foldl_range_map (f : ℕ → ℚ) (n : ℕ) :
    ((List.range n).map f).foldl (· + ·) 0 = ∑ i in Finset.range n, f i := by
  rw [foldl_add_eq_sum, zero_add]
  induction n with
  | zero => simp
  | succ m ih =>
      rw [List.range_succ, List.map_append, List.sum_append, ih,
        Finset.sum_range_succ]
      simp

lemma salesSeries_sum (items : List LineItemRow) (sku : String) (today : ℤ) :
    (salesSeries items sku today).foldl (· + ·) 0 =
      ∑ i in Finset.range 30, dailyQty items sku (today - i) := by
  rw [salesSeries, foldl_range_map]
  refine Eq.trans ?_
    (Finset.sum_range_reflect (fun i => dailyQty items sku (today - (i : ℤ))) 30)
  refine Finset.sum_congr rfl (fun j hj => ?_)
  have hj' : j < 30 := Finset.mem_range.mp hj
  congr 1
  have h1 : ((30 - 1 - j : ℕ) : ℤ) = 29 - (j : ℤ) := by omega
  rw [h1]; ring

lemma salesSeries_drop_sum (items : List LineItemRow) (sku : String) (today : ℤ) :
    ((salesSeries items sku today).drop 23).foldl (· + ·) 0 =
      ∑ i in Finset.range 7, dailyQty items sku (today - i) := by
  have hdrop : (List.range 30).drop 23 = [23, 24, 25, 26, 27, 28, 29] := by decide
  have hmap : (salesSeries items sku today).drop 23 =
      ([23, 24, 25, 26, 27, 28, 29] : List ℕ).map
        (fun j : ℕ => dailyQty items sku (today - 29 + (j : ℤ))) := by
    rw [salesSeries, ← hdrop]
    exact (List.map_drop ..).symm
  rw [hmap, foldl_add_eq_sum, zero_add]
  simp only [List.map_cons, List.map_nil, List.sum_cons, List.sum_nil,
    Finset.sum_range_succ, Finset.sum_range_zero]
  push_cast
  ring_nf

set_option maxRecDepth 40000 in
/-- C1: the metrics rollup builds the 30-slot daily-sales sequence (missing
days zero) and stores rolling30 = mean of all 30 daily sums, rolling7 = mean
of the 7 most recent daily sums; on the spec scenario (23 zero days followed
by 7 days of 2 units) rolling30 = 14/30 and rolling7 = 2. -/
theorem rolling_averages_correct (items : List LineItemRow) (inv : List InvRow)
    (sku : String) (today : ℤ) :
    (computeSkuMetrics items inv sku today).rolling30 = specRolling30 items sku today ∧
    (computeSkuMetrics items inv sku today).rolling7 = specRolling7 items sku today ∧
    (computeSkuMetrics demoItems [] "A-1" 0).rolling30 = 14 / 30 ∧
    (computeSkuMetrics demoItems [] "A-1" 0).rolling7 = 2 := by
  refine ⟨?_, ?_, by with_unfolding_all decide, by with_unfolding_all decide⟩
  · show (salesSeries items sku today).foldl (· + ·) 0 / 30 = _
    rw [salesSeries_sum, specRolling30]
  · show ((salesSeries items sku today).drop 23).foldl (· + ·) 0 / 7 = _
    rw [salesSeries_drop_sum, specRolling7]

/-- Demo inventory for the witnesses: SKU "A-1" with 5 units at one location. -/
def demoInv : List InvRow := [⟨"A-1", "loc-1", 5, 0⟩]

/-- Demo inventory for the no-alert scenario: SKU "B-2" with 100 units. -/
def demoInvB : List InvRow := [⟨"B-2", "loc-1", 100, 0⟩]

/-- C2: days_of_cover is current_stock / rolling30 exactly when rolling30 > 0,
is null when rolling30 = 0, and a stored cover value certifies rolling30 > 0
(the division is guarded, so no division-by-zero artifact is ever stored). -/
theorem days_of_cover_guard (items : List LineItemRow) (inv : List InvRow)
    (sku : String) (today : ℤ) :
    ((computeSkuMetrics items inv sku today).rolling30 > 0 →
      (computeSkuMetrics items inv sku today).days_of_cover =
        some ((computeSkuMetrics items inv sku today).current_stock /
          (computeSkuMetrics items inv sku today).rolling30)) ∧
    ((computeSkuMetrics items inv sku today).rolling30 = 0 →
      (computeSkuMetrics items inv sku today).days_of_cover = none) ∧
    (∀ c, (computeSkuMetrics items inv sku today).days_of_cover = some c →
      (computeSkuMetrics items inv sku today).rolling30 > 0) := by
  simp only [computeSkuMetrics]
  refine ⟨fun h => ?_, fun h => ?_, fun c hc => ?_⟩
  · rw [if_pos h]
  · rw [h, if_neg (lt_irrefl (0 : ℚ))]
  · by_cases h : (salesSeries items sku today).foldl (· + ·) 0 / 30 > 0
    · exact h
    · rw [if_neg h] at hc
      cases hc

set_option maxRecDepth 40000 in
/-- Witness for C2 at the scenario input: rolling30 = 7/15 > 0 and the stored
cover is current_stock / rolling30. -/
theorem days_of_cover_guard_witness :
    (computeSkuMetrics demoItems demoInv "A-1" 0).days_of_cover =
      some ((computeSkuMetrics demoItems demoInv "A-1" 0).current_stock /
        (computeSkuMetrics demoItems demoInv "A-1" 0).rolling30) :=
  (days_of_cover_guard demoItems demoInv "A-1" 0).1 (by with_unfolding_all decide)

/-- C5: a restock alert is emitted iff days_of_cover is non-null and at most
14; the alert carries the SKU, the current stock and the rolling30 average;
and when rolling30 = 0 no alert fires regardless of stock. -/
theorem restock_alert_iff (items : List LineItemRow) (inv : List InvRow)
    (sku : String) (today : ℤ) :
    ((alertOf sku (computeSkuMetrics items inv sku today)).isSome = true ↔
      ∃ c, (computeSkuMetrics items inv sku today).days_of_cover = some c ∧ c ≤ 14) ∧
    (∀ a, alertOf sku (computeSkuMetrics items inv sku today) = some a →
      a = ⟨sku, (computeSkuMetrics items inv sku today).current_stock,
        (computeSkuMetrics items inv sku today).rolling30⟩) ∧
    ((computeSkuMetrics items inv sku today).rolling30 = 0 →
      alertOf sku (computeSkuMetrics items inv sku today) = none) := by
  refine ⟨?_, fun a ha => ?_, fun h => ?_⟩
  · rcases hdo : (computeSkuMetrics items inv sku today).days_of_cover with _ | c
    · simp [alertOf, hdo]
    · by_cases hc : c ≤ 14
      · simp only [alertOf, hdo, if_pos hc, Option.isSome_some, true_iff]
        exact ⟨c, rfl, hc⟩
      · simp only [alertOf, hdo, if_neg hc, Option.isSome_none,
          Bool.false_eq_true, false_iff]
        rintro ⟨c', hc', hle⟩
        exact hc (Option.some.inj hc' ▸ hle)
  · rcases hdo : (computeSkuMetrics items inv sku today).days_of_cover with _ | c <;>
      simp only [alertOf, hdo] at ha
    · cases ha
    · by_cases hc : c ≤ 14
      · rw [if_pos hc] at ha
        exact (Option.some.inj ha).symm
      · rw [if_neg hc] at ha
        cases ha
  · have hnone : (computeSkuMetrics items inv sku today).days_of_cover = none := by
      simp only [computeSkuMetrics] at h ⊢
      rw [h, if_neg (lt_irrefl (0 : ℚ))]
    simp only [alertOf, hnone]

set_option maxRecDepth 40000 in
/-- Witness for C5: on the scenario SKU "A-1" (cover 75/7 ≤ 14) the alert
fires with the SKU, stock and rolling30 in the message, and on the spec
scenario "B-2" (rolling30 = 0, stock 100) no alert fires. -/
theorem restock_alert_iff_witness :
    (⟨"A-1", 5, 7 / 15⟩ : Alert) =
      ⟨"A-1", (computeSkuMetrics demoItems demoInv "A-1" 0).current_stock,
        (computeSkuMetrics demoItems demoInv "A-1" 0).rolling30⟩ ∧
    alertOf "B-2" (computeSkuMetrics [] demoInvB "B-2" 0) = none :=
  ⟨(restock_alert_iff demoItems demoInv "A-1" 0).2.1 ⟨"A-1", 5, 7 / 15⟩ (by with_unfolding_all decide),
    (restock_alert_iff [] demoInvB "B-2" 0).2.2 (by with_unfolding_all decide)⟩

/-! ## Trend classification (skus-live.js lines 59-69, read time, not stored) -/

/-- skus-live.js `safeNum(v, fallback)`: null/undefined become the fallback. -/
def safeNum (v : Option ℚ) (fallback : ℚ) : ℚ :=
  match v with
  | some x => x
  | none => fallback

/-- The 7-day average of skus-live.js line 66:
`series.reduce((a,b)=>a+b,0) / (series.length || 1)`. -/
def avg7Of (series : List ℚ) : ℚ :=
  series.foldl (· + ·) 0 / (if series.length = 0 then 1 else (series.length : ℚ))

/-- Trend classification of skus-live.js lines 59-69. `r.rolling30` is a
pg NUMERIC, which node-postgres delivers to JS as a (nonempty, hence truthy)
string, and the ETL always writes it non-null; so `Number(r.rolling30 || 1)`
denotes the stored value, with the 1 fallback reachable only for a NULL
column, modelled by the `Option`. -/
def trendOf (mtd prev : ℚ) (series : List ℚ) (rolling30 : Option ℚ) : String :=
  if prev > 0 then
    if mtd ≥ 1.5 * prev then "fast"
    else if mtd ≤ 0.7 * prev then "slow"
    else "steady"
  else
    let avg7 := avg7Of series
    let base : ℚ := match rolling30 with | some v => v | none => 1
    if avg7 ≥ 1.5 * base then "fast"
    else if avg7 ≤ 0.7 * base then "slow"
    else "steady"

/-- C9: with previous-month-to-date prev > 0 the trend is "fast" when
mtd ≥ 1.5·prev, "slow" when mtd ≤ 0.7·prev, "steady" otherwise; with no
previous-month data (prev = 0) it compares the 7-day average against the
stored rolling30 with the same thresholds; and mtd=100, prev=60 is "fast"
while mtd=40, prev=60 is "slow". -/
theorem trend_thresholds (mtd prev : ℚ) (series : List ℚ) (r30 : ℚ) :
    (prev > 0 → mtd ≥ 1.5 * prev → trendOf mtd prev series (some r30) = "fast") ∧
    (prev > 0 → mtd ≤ 0.7 * prev → trendOf mtd prev series (some r30) = "slow") ∧
    (prev > 0 → 0.7 * prev < mtd → mtd < 1.5 * prev →
      trendOf mtd prev series (some r30) = "steady") ∧
    (prev = 0 → trendOf mtd prev series (some r30) =
      (if avg7Of series ≥ 1.5 * r30 then "fast"
       else if avg7Of series ≤ 0.7 * r30 then "slow" else "steady")) ∧
    trendOf 100 60 series (some r30) = "fast" ∧
    trendOf 40 60 series (some r30) = "slow" := by
  refine ⟨fun h1 h2 => ?_, fun h1 h2 => ?_, fun h1 h2 h3 => ?_, fun h => ?_, ?_, ?_⟩
  · rw [trendOf, if_pos h1, if_pos h2]
  · have hlt : ¬ mtd ≥ 1.5 * prev := by push_neg; nlinarith
    rw [trendOf, if_pos h1, if_neg hlt, if_pos h2]
  · have hfast : ¬ mtd ≥ 1.5 * prev := by push_neg; exact h3
    have hslow : ¬ mtd ≤ 0.7 * prev := by push_neg; exact h2
    rw [trendOf, if_pos h1, if_neg hfast, if_neg hslow]
  · rw [h, trendOf, if_neg (lt_irrefl (0 : ℚ))]
  · rw [trendOf, if_pos (by norm_num : (60 : ℚ) > 0),
      if_pos (by norm_num : (100 : ℚ) ≥ 1.5 * 60)]
  · rw [trendOf, if_pos (by norm_num : (60 : ℚ) > 0),
      if_neg (by norm_num : ¬ (40 : ℚ) ≥ 1.5 * 60),
      if_pos (by norm_num : (40 : ℚ) ≤ 0.7 * 60)]

/-- The repository's own sample 7-day series for SKU "POK-234". -/
def demoSeries : List ℚ := [2, 3, 4, 6, 7, 9, 10]

/-- Witness for C9: the threshold rules applied at the spec scenarios
(mtd=100, prev=60 → fast; mtd=40, prev=60 → slow) and the prev=0 fallback. -/
theorem trend_thresholds_witness :
    trendOf 100 60 demoSeries (some (11 / 2)) = "fast" ∧
    trendOf 40 60 demoSeries (some (11 / 2)) = "slow" ∧
    trendOf 0 0 demoSeries (some (11 / 2)) =
      (if avg7Of demoSeries ≥ 1.5 * (11 / 2) then "fast"
       else if avg7Of demoSeries ≤ 0.7 * (11 / 2) then "slow" else "steady") :=
  ⟨(trend_thresholds 100 60 demoSeries (11 / 2)).1 (by norm_num) (by norm_num),
    (trend_thresholds 40 60 demoSeries (11 / 2)).2.1 (by norm_num) (by norm_num),
    (trend_thresholds 0 0 demoSeries (11 / 2)).2.2.2.1 rfl⟩

/-! ## Fetched payload shapes (Shopify GraphQL / REST responses) -/

/-- A GraphQL product-variant node (id, sku, price, inventoryItem.id). -/
structure VariantNode where
  id : String
  sku : String
  price : ℚ
  inventoryItemId : Option String
  deriving Repr, DecidableEq

/-- A GraphQL product node with its variants. -/
structure ProductNode where
  id : String
  handle : String
  title : String
  images : List String
  variants : List VariantNode
  deriving Repr, DecidableEq

/-- An inventory_levels REST item. -/
structure InvItem where
  inventory_item_id : Option String
  sku : Option String
  location_id : Option String
  available : Option ℤ
  deriving Repr, DecidableEq

/-- An order line item from the orders REST payload or a webhook body. -/
structure LineItemPayload where
  sku : String
  quantity : ℤ
  price : ℚ
  deriving Repr, DecidableEq

/-- An order from the orders REST payload or a webhook body. -/
structure OrderPayload where
  id : String
  created_at : Option ℤ
  line_items : List LineItemPayload
  deriving Repr, DecidableEq

/-! ## Idempotent persistence (run-etl.js lines 105-241) -/

/-- Replace a product row's created_at (the upsert's SET list omits it). -/
def withCreated (r : PRow) (c : ℤ) : PRow := { r with created_at := c }

/-- Product upsert of run-etl.js lines 116-128:
`INSERT ... ON CONFLICT (sku) DO UPDATE SET title=..., ..., retail_price=...`
— when a row with the SKU exists every SET column is overwritten in place
(created_at is not in the SET list and is kept); otherwise a row is added. -/
def upsertProduct (rows : List PRow) (r : PRow) : List PRow :=
  if rows.any (fun q => decide (q.sku = r.sku)) then
    rows.map (fun q => if q.sku = r.sku then withCreated r q.created_at else q)
  else rows ++ [r]

/-- The `if (!sku) continue` skip of run-etl.js line 110 around the upsert. -/
def stepProduct (rows : List PRow) (r : PRow) : List PRow :=
  if r.sku = "" then rows else upsertProduct rows r

/-- The product persistence loop over all fetched variant rows. -/
def persistProducts (rows : List PRow) (ps : List PRow) : List PRow :=
  ps.foldl stepProduct rows

/-- `String(gid).split('/').pop()`: the trailing segment of a GID. -/
def lastSeg (s : String) : String := ((s.splitOn "/").getLast?).getD ""

/-- One products-table row built from a product node and one of its
variants (run-etl.js lines 105-127): sku is the trimmed variant sku,
inventory_item_id the numeric tail of the inventoryItem GID, image the
first image. -/
def mkProductRow (p : ProductNode) (v : VariantNode) (t : ℤ) : PRow :=
  { sku := v.sku.trim, title := p.title, product_id := p.id,
    variant_id := some v.id,
    inventory_item_id := v.inventoryItemId.map lastSeg,
    image := p.images.head?, shopify_handle := p.handle,
    retail_price := v.price, created_at := t }

/-- All variant rows of a fetched product list, in loop order. -/
def extractVariantRows (ps : List ProductNode) (t : ℤ) : List PRow :=
  (ps.map (fun p => p.variants.map (fun v => mkProductRow p v t))).flatten

/-- The `invItemToSku` map of run-etl.js lines 172-180: built over the
products rows with non-null variant_id, keyed by the numeric tail of the
variant GID (skipped when that tail is empty), later rows overwriting
earlier ones; so a lookup returns the sku of the last matching row. -/
def lookupVariantSku (prods : List PRow) (key : String) : Option String :=
  ((prods.filter (fun r =>
    match r.variant_id with
    | some v => decide (lastSeg v = key) && decide (¬ lastSeg v = "")
    | none => false)).getLast?).map (fun r => r.sku)

/-- The `item.sku || null` fallback (an empty string is falsy). -/
def fallbackSku (item : InvItem) : Option String :=
  match item.sku with
  | some s => if s = "" then none else some s
  | none => none

/-- run-etl.js line 184: `invItemToSku[invItemId] || (item.sku || null)`,
with `if (!sku) continue` turning the falsy cases into none. -/
def resolveSku (prods : List PRow) (item : InvItem) : Option String :=
  match item.inventory_item_id with
  | some iid =>
    match lookupVariantSku prods iid with
    | some s => if s = "" then fallbackSku item else some s
    | none => fallbackSku item
  | none => fallbackSku item

/-- `String(item.location_id || 'unknown')`. -/
def locOf (item : InvItem) : String := item.location_id.getD "unknown"

/-- The DO UPDATE semantics that the inventory upsert statement of
run-etl.js lines 187-193 (`ON CONFLICT (sku, location_id) DO UPDATE SET
available=..., timestamp=...`) expresses. Postgres only ever applies this
when a unique index on exactly (sku, location_id) exists; `upsertInventoryE`
below gates it on the 001_init.sql schema, under which executing the
statement raises 42P10 instead. -/
def upsertInventory (rows : List InvRow) (r : InvRow) : List InvRow :=
  if rows.any (fun q => decide (q.sku = r.sku ∧ q.location_id = r.location_id)) then
    rows.map (fun q =>
      if q.sku = r.sku ∧ q.location_id = r.location_id then
        { q with available := r.available, timestamp := r.timestamp }
      else q)
  else rows ++ [r]

/-- Order line insert of run-etl.js lines 235-239: `ON CONFLICT DO NOTHING`
against the unique index on (order_id, sku): skip when the pair exists. -/
def insertLineItem (rows : List LineItemRow) (r : LineItemRow) : List LineItemRow :=
  if rows.any (fun q => decide (q.order_id = r.order_id ∧ q.sku = r.sku)) then rows
  else rows ++ [r]

/-- The order persistence double loop of run-etl.js lines 228-241 (price is
inserted as the literal 0 there; created_at defaults to the run time). -/
def persistOrders (rows : List LineItemRow) (orders : List OrderPayload)
    (t : ℤ) : List LineItemRow :=
  orders.foldl (fun acc o =>
    o.line_items.foldl (fun acc2 li =>
      if li.sku.trim = "" then acc2
      else insertLineItem acc2 ⟨o.id, li.sku.trim, li.quantity, 0, o.created_at.getD t⟩)
      acc) rows

/-- The webhooks.js orders/create (and orders/updated) ingestion: the same
skip-on-conflict insert per line item, carrying the payload price. -/
def webhookIngest (rows : List LineItemRow) (o : OrderPayload) (t : ℤ) : List LineItemRow :=
  o.line_items.foldl (fun acc li =>
    if li.sku.trim = "" then acc
    else insertLineItem acc ⟨o.id, li.sku.trim, li.quantity, li.price, o.created_at.getD t⟩)
    rows

/-- The three tables the persistence claims talk about. -/
structure DB where
  products : List PRow
  inventory : List InvRow
  orders : List LineItemRow
  deriving Repr, DecidableEq

/-- One fetched payload (products with variants, inventory items, orders). -/
structure FetchedPayload where
  products : List ProductNode
  invItems : List InvItem
  orders : List OrderPayload
  deriving Repr, DecidableEq

/-! ## Schema constraints created by 001_init.sql -/

/-- Unique column sets of `products` (the primary key). -/
def productsUniqueKeys : List (List String) := [["sku"]]

/-- Unique column sets of `inventory_levels`: only the SERIAL primary key;
001_init.sql creates no unique index over the data columns. -/
def inventoryLevelsUniqueKeys : List (List String) := [["id"]]

/-- Unique column sets of `orders_lineitems`: the SERIAL primary key and
`CREATE UNIQUE INDEX orders_lineitems_unique ON orders_lineitems (order_id, sku)`. -/
def ordersLineitemsUniqueKeys : List (List String) := [["id"], ["order_id", "sku"]]

/-- Unique column sets of `metrics_daily`: SERIAL primary key and UNIQUE (sku, date). -/
def metricsDailyUniqueKeys : List (List String) := [["id"], ["sku", "date"]]

/-- The conflict target named by the inventory upsert in run-etl.js line 190,
etl_worker.js line 167 and webhooks.js (`ON CONFLICT (sku, location_id)`).
Postgres requires a unique index on exactly this column set. -/
def inventoryConflictTarget : List String := ["sku", "location_id"]

/-- Two column lists name the same column set. -/
def sameColumnSet (a b : List String) : Bool :=
  a.all (fun c => b.contains c) && b.all (fun c => a.contains c)

/-- Insertion into a table none of whose unique constraints covers the
inserted data columns: the row is simply appended. -/
def plainInsert (rows : List InvRow) (r : InvRow) : List InvRow := rows ++ [r]

/-- The database error the statements can raise at plan time. -/
inductive PgErr where
  | noMatchingUniqueConstraint
  deriving Repr, DecidableEq

/-- The Postgres 42P10 message text. -/
def pgErrMsg : PgErr → String
  | .noMatchingUniqueConstraint =>
      "there is no unique or exclusion constraint matching the ON CONFLICT specification"

/-- Whether some unique constraint of inventory_levels (as created by
001_init.sql) matches the column set named by `ON CONFLICT (sku,
location_id)`. Postgres validates this at plan time, before looking at any
row, and raises 42P10 when it fails. -/
def invUpsertStatementValid : Bool :=
  inventoryLevelsUniqueKeys.any (fun k => sameColumnSet k inventoryConflictTarget)

/-- Executing the inventory upsert statement of run-etl.js lines 187-193
against the 001_init.sql schema: the in-place DO UPDATE semantics when a
unique index backs the conflict target, and the 42P10 error otherwise —
raised regardless of the table's contents. -/
def upsertInventoryE (rows : List InvRow) (r : InvRow) : Except PgErr (List InvRow) :=
  if invUpsertStatementValid then .ok (upsertInventory rows r)
  else .error .noMatchingUniqueConstraint

/-- The inventory persistence loop of run-etl.js lines 182-193: resolve each
item's SKU via the variant map with payload-sku fallback, skip unresolvable
items (`if (!sku) continue` — no statement executes for them), and run the
upsert statement for the rest; the first executed statement's error aborts
the loop (it propagates to the handler's outer catch). -/
def persistInventoryE (prods : List PRow) (t : ℤ) :
    List InvRow → List InvItem → Except PgErr (List InvRow)
  | rows, [] => .ok rows
  | rows, item :: rest =>
    match resolveSku prods item with
    | none => persistInventoryE prods t rows rest
    | some s =>
      match upsertInventoryE rows ⟨s, locOf item, item.available.getD 0, t⟩ with
      | .error e => .error e
      | .ok rows2 => persistInventoryE prods t rows2 rest

/-- The persistence step of one run (run-etl.js lines 105-241) at run time
t: product upserts, then inventory upserts resolved against the products
table just written, then order line inserts. There is no enclosing
transaction: when the inventory stage raises, the products are already
written and the order inserts never execute. -/
def persistAllE (db : DB) (p : FetchedPayload) (t : ℤ) : Except PgErr DB :=
  let prods := persistProducts db.products (extractVariantRows p.products t)
  match persistInventoryE prods t db.inventory p.invItems with
  | .error e => .error e
  | .ok inv => .ok ⟨prods, inv, persistOrders db.orders p.orders t⟩

/-! ## Idempotence of the product upsert -/

/-- Some row with this SKU is present. -/
def HasSku (rows : List PRow) (s : String) : Prop := ∃ q ∈ rows, q.sku = s

/-- The payload row whose values win for a SKU: the last occurrence in the
payload (skipped payload rows have sku = "" and never match a nonempty s). -/
def lastUpsert (ps : List PRow) (s : String) : Option PRow :=
  if s = "" then none else (ps.filter (fun r => decide (r.sku = s))).getLast?

/-- What a full product-persistence pass writes over an existing row. -/
def charMap (ps : List PRow) (q : PRow) : PRow :=
  match lastUpsert ps q.sku with
  | some r => withCreated r q.created_at
  | none => q

lemma hasSku_any (rows : List PRow) (s : String) :
    rows.any (fun q => decide (q.sku = s)) = true ↔ HasSku rows s := by
  simp [HasSku, List.any_eq_true]

lemma sku_of_upd (r q : PRow) :
    (if q.sku = r.sku then withCreated r q.created_at else q).sku = q.sku := by
  by_cases h : q.sku = r.sku
  · rw [if_pos h, withCreated, h]
  · rw [if_neg h]

lemma withCreated_self (r : PRow) : withCreated r r.created_at = r := rfl

lemma withCreated_withCreated (r : PRow) (c c' : ℤ) :
    withCreated (withCreated r c) c' = withCreated r c' := rfl

lemma created_withCreated (r : PRow) (c : ℤ) : (withCreated r c).created_at = c := rfl

lemma lastUpsert_nil (s : String) : lastUpsert [] s = none := by
  rw [lastUpsert]
  split <;> simp

lemma getLast?_eq_none_iff {α : Type} {l : List α} : l.getLast? = none ↔ l = [] := by
  cases l <;> simp [List.getLast?]

lemma lastUpsert_cons_skip (r : PRow) (t : List PRow) (s : String)
    (h : ¬ r.sku = s ∨ s = "") : lastUpsert (r :: t) s = lastUpsert t s := by
  rcases h with h | h
  · by_cases hs : s = ""
    · rw [lastUpsert, lastUpsert, if_pos hs, if_pos hs]
    · rw [lastUpsert, lastUpsert, if_neg hs, if_neg hs,
        List.filter_cons_of_neg (by simpa using h)]
  · rw [lastUpsert, lastUpsert, if_pos h, if_pos h]

lemma lastUpsert_cons_match_some (r : PRow) (t : List PRow) (s : String) (r2 : PRow)
    (hrs : r.sku = s) (hs : ¬ s = "") (h : lastUpsert t s = some r2) :
    lastUpsert (r :: t) s = some r2 := by
  rw [lastUpsert, if_neg hs] at h ⊢
  rw [List.filter_cons_of_pos (by simpa using hrs)]
  rcases hf : t.filter (fun x => decide (x.sku = s)) with _ | ⟨a, l⟩
  · rw [hf] at h; cases h
  · rw [hf] at h
    rw [hf, List.getLast?_cons_cons, h]

lemma lastUpsert_cons_match_none (r : PRow) (t : List PRow) (s : String)
    (hrs : r.sku = s) (hs : ¬ s = "") (h : lastUpsert t s = none) :
    lastUpsert (r :: t) s = some r := by
  rw [lastUpsert, if_neg hs] at h ⊢
  rw [List.filter_cons_of_pos (by simpa using hrs), getLast?_eq_none_iff.mp h]
  rfl

lemma charMap_congr_lastUpsert (ps ps' : List PRow) (q : PRow)
    (h : lastUpsert ps q.sku = lastUpsert ps' q.sku) : charMap ps q = charMap ps' q := by
  rw [charMap, charMap, h]

lemma charMap_nil (q : PRow) : charMap [] q = q := by
  rw [charMap, lastUpsert_nil]

lemma hasSku_upsert_self (rows : List PRow) (r : PRow) :
    HasSku (upsertProduct rows r) r.sku := by
  rw [upsertProduct]
  split
  · rename_i hany
    obtain ⟨q, hq, hsk⟩ := (hasSku_any rows r.sku).mp hany
    refine ⟨if q.sku = r.sku then withCreated r q.created_at else q,
      List.mem_map.mpr ⟨q, hq, rfl⟩, ?_⟩
    rw [sku_of_upd, hsk]
  · exact ⟨r, List.mem_append.mpr (Or.inr (by simp)), rfl⟩

lemma hasSku_upsert_mono (rows : List PRow) (r : PRow) (s : String)
    (h : HasSku rows s) : HasSku (upsertProduct rows r) s := by
  obtain ⟨q, hq, hsk⟩ := h
  rw [upsertProduct]
  split
  · exact ⟨if q.sku = r.sku then withCreated r q.created_at else q,
      List.mem_map.mpr ⟨q, hq, rfl⟩, by rw [sku_of_upd, hsk]⟩
  · exact ⟨q, List.mem_append.mpr (Or.inl hq), hsk⟩

lemma hasSku_step_mono (rows : List PRow) (r : PRow) (s : String)
    (h : HasSku rows s) : HasSku (stepProduct rows r) s := by
  rw [stepProduct]
  split
  · exact h
  · exact hasSku_upsert_mono rows r s h

lemma hasSku_persist_mono (ps : List PRow) (rows : List PRow) (s : String)
    (h : HasSku rows s) : HasSku (persistProducts rows ps) s := by
  induction ps generalizing rows with
  | nil => exact h
  | cons r t ih =>
      rw [persistProducts, List.foldl_cons]
      exact ih (stepProduct rows r) (hasSku_step_mono rows r s h)

lemma hasSku_persist_of_mem (ps : List PRow) (rows : List PRow) (r : PRow)
    (hr : r ∈ ps) (hs : ¬ r.sku = "") : HasSku (persistProducts rows ps) r.sku := by
  induction ps generalizing rows with
  | nil => cases hr
  | cons r' t ih =>
      rw [persistProducts, List.foldl_cons]
      rcases List.mem_cons.mp hr with h | h
      · subst h
        refine hasSku_persist_mono t (stepProduct rows r) r.sku ?_
        rw [stepProduct, if_neg hs]
        exact hasSku_upsert_self rows r
      · exact ih (stepProduct rows r') h

lemma upsert_row_of_sku_eq (rows : List PRow) (r q : PRow)
    (hq : q ∈ upsertProduct rows r) (hsk : q.sku = r.sku) :
    q = withCreated r q.created_at := by
  rw [upsertProduct] at hq
  split at hq
  · obtain ⟨q0, hq0, rfl⟩ := List.mem_map.mp hq
    by_cases h0 : q0.sku = r.sku
    · rw [if_pos h0, created_withCreated]
    · rw [if_neg h0] at hsk ⊢
      exact absurd hsk h0
  · rename_i hany
    rcases List.mem_append.mp hq with h | h
    · exact absurd ((hasSku_any rows r.sku).mpr ⟨q, h, hsk⟩) (by simpa using hany)
    · simp only [List.mem_singleton] at h
      rw [h]
      exact (withCreated_self r).symm

lemma persist_untouched (ps : List PRow) (rows : List PRow) (q : PRow)
    (hq : q ∈ persistProducts rows ps) (hnone : lastUpsert ps q.sku = none) :
    q ∈ rows := by
  induction ps generalizing rows with
  | nil => exact hq
  | cons r t ih =>
      rw [persistProducts, List.foldl_cons] at hq
      have htail : lastUpsert t q.sku = none := by
        by_cases hqs : q.sku = ""
        · rw [lastUpsert, if_pos hqs]
        · rw [lastUpsert, if_neg hqs] at hnone ⊢
          rw [getLast?_eq_none_iff] at hnone ⊢
          rw [List.filter_cons] at hnone
          split at hnone
          · cases hnone
          · exact hnone
      have hq' : q ∈ stepProduct rows r := ih (stepProduct rows r) hq htail
      have hne : ¬ (q.sku = r.sku ∧ ¬ q.sku = "") := by
        rintro ⟨he, hqs⟩
        rw [lastUpsert, if_neg hqs, getLast?_eq_none_iff] at hnone
        have : r ∈ (r :: t).filter (fun x => decide (x.sku = q.sku)) := by
          rw [List.filter_cons_of_pos (by simpa using he.symm)]
          simp
        rw [hnone] at this
        cases this
      rw [stepProduct] at hq'
      split at hq'
      · exact hq'
      · rename_i hrs
        rw [upsertProduct] at hq'
        split at hq'
        · obtain ⟨q0, hq0, rfl⟩ := List.mem_map.mp hq'
          by_cases h0 : q0.sku = r.sku
          · exfalso
            refine hne ⟨?_, ?_⟩
            · rw [if_pos h0, withCreated]
            · rw [if_pos h0, withCreated]
              simpa using hrs
          · rw [if_neg h0]
            exact hq0
        · rcases List.mem_append.mp hq' with h | h
          · exact h
          · simp only [List.mem_singleton] at h
            subst h
            exact absurd ⟨rfl, hrs⟩ hne

lemma sku_withCreated (r : PRow) (c : ℤ) : (withCreated r c).sku = r.sku := rfl

lemma charMap_step (r : PRow) (t : List PRow) (q : PRow) (hr : ¬ r.sku = "") :
    charMap t (if q.sku = r.sku then withCreated r q.created_at else q) =
      charMap (r :: t) q := by
  by_cases hq : q.sku = r.sku
  · have hqs : ¬ q.sku = "" := by rw [hq]; exact hr
    rw [if_pos hq]
    rcases hl : lastUpsert t q.sku with _ | r2
    · have h1 : lastUpsert (r :: t) q.sku = some r :=
        lastUpsert_cons_match_none r t q.sku hq.symm hqs hl
      rw [charMap, charMap, h1]
      simp only [sku_withCreated]
      rw [← hq, hl]
    · have h1 : lastUpsert (r :: t) q.sku = some r2 :=
        lastUpsert_cons_match_some r t q.sku r2 hq.symm hqs hl
      rw [charMap, charMap, h1]
      simp only [sku_withCreated]
      rw [← hq, hl]
      rfl
  · have hskip : lastUpsert (r :: t) q.sku = lastUpsert t q.sku :=
      lastUpsert_cons_skip r t q.sku (Or.inl (fun he => hq he.symm))
    rw [if_neg hq]
    exact charMap_congr_lastUpsert t (r :: t) q hskip.symm

lemma persist_char (ps : List PRow) : ∀ (rows : List PRow),
    (∀ r ∈ ps, ¬ r.sku = "" → HasSku rows r.sku) →
    persistProducts rows ps = rows.map (charMap ps) := by
  induction ps with
  | nil =>
      intro rows _
      refine Eq.symm ?_
      have h1 : rows.map (charMap []) = rows.map (fun q => q) :=
        List.map_congr_left (fun q _ => charMap_nil q)
      rw [h1, List.map_id']
      rfl
  | cons r t ih =>
      intro rows h
      rw [persistProducts, List.foldl_cons]
      by_cases hr : r.sku = ""
      · have hstep : stepProduct rows r = rows := by rw [stepProduct, if_pos hr]
        rw [hstep]
        rw [show List.foldl stepProduct rows t = persistProducts rows t from rfl,
          ih rows (fun r' hr' hs' => h r' (List.mem_cons_of_mem r hr') hs')]
        refine List.map_congr_left (fun q _ => ?_)
        refine charMap_congr_lastUpsert t (r :: t) q ?_
        refine (lastUpsert_cons_skip r t q.sku ?_).symm
        by_cases hqs : q.sku = ""
        · exact Or.inr hqs
        · exact Or.inl (fun he => hqs (by rw [← he, hr]))
      · have hhead := h r (List.mem_cons_self r t) hr
        have hstep : stepProduct rows r =
            rows.map (fun q => if q.sku = r.sku then withCreated r q.created_at else q) := by
          rw [stepProduct, if_neg hr, upsertProduct,
            if_pos ((hasSku_any rows r.sku).mpr hhead)]
        rw [hstep]
        have htail : ∀ r' ∈ t, ¬ r'.sku = "" →
            HasSku (rows.map (fun q => if q.sku = r.sku then withCreated r q.created_at else q)) r'.sku := by
          intro r' hr' hs'
          obtain ⟨q, hq, hsk⟩ := h r' (List.mem_cons_of_mem r hr') hs'
          exact ⟨if q.sku = r.sku then withCreated r q.created_at else q,
            List.mem_map.mpr ⟨q, hq, rfl⟩, by rw [sku_of_upd, hsk]⟩
        rw [show List.foldl stepProduct
            (rows.map (fun q => if q.sku = r.sku then withCreated r q.created_at else q)) t =
            persistProducts
            (rows.map (fun q => if q.sku = r.sku then withCreated r q.created_at else q)) t from rfl,
          ih _ htail, List.map_map]
        exact List.map_congr_left (fun q _ => charMap_step r t q hr)

lemma charMap_fixed (ps : List PRow) : ∀ (rows : List PRow) (q : PRow),
    q ∈ persistProducts rows ps → charMap ps q = q := by
  induction ps with
  | nil => intro rows q _; exact charMap_nil q
  | cons r t ih =>
      intro rows q hq
      rw [persistProducts, List.foldl_cons] at hq
      by_cases hq1 : q.sku = r.sku ∧ ¬ q.sku = ""
      · obtain ⟨he, hqs⟩ := hq1
        rcases hl : lastUpsert t q.sku with _ | r2
        · have hq' : q ∈ stepProduct rows r := persist_untouched t (stepProduct rows r) q hq hl
          rw [stepProduct, if_neg (by rw [← he]; exact hqs)] at hq'
          have hval := upsert_row_of_sku_eq rows r q hq' he
          rw [charMap, lastUpsert_cons_match_none r t q.sku he.symm hqs hl]
          exact hval.symm
        · have h1 := lastUpsert_cons_match_some r t q.sku r2 he.symm hqs hl
          have h2 : charMap t q = q := ih (stepProduct rows r) q hq
          rw [charMap, hl] at h2
          rw [charMap, h1]
          exact h2
      · have hskip : lastUpsert (r :: t) q.sku = lastUpsert t q.sku := by
          apply lastUpsert_cons_skip
          by_cases hqs : q.sku = ""
          · exact Or.inr hqs
          · exact Or.inl (fun he => hq1 ⟨he.symm, hqs⟩)
        rw [charMap_congr_lastUpsert (r :: t) t q hskip]
        exact ih (stepProduct rows r) q hq

lemma getLast?_map_opt {α β : Type} (f : α → β) (l : List α) :
    (l.map f).getLast? = l.getLast?.map f := by
  induction l with
  | nil => rfl
  | cons a l ih =>
      rcases l with _ | ⟨b, t⟩
      · rfl
      · show (f a :: f b :: List.map f t).getLast? = Option.map f ((b :: t).getLast?)
        rw [List.getLast?_cons_cons]
        exact ih

lemma filter_sku_map_withCreated (ps : List PRow) (t : ℤ) (s : String) :
    (ps.map (fun r => withCreated r t)).filter (fun x => decide (x.sku = s)) =
      (ps.filter (fun x => decide (x.sku = s))).map (fun r => withCreated r t) := by
  induction ps with
  | nil => rfl
  | cons a l ih =>
      rw [List.map_cons, List.filter_cons, List.filter_cons]
      by_cases h : a.sku = s
      · rw [if_pos (by simpa [sku_withCreated] using h), if_pos (by simpa using h),
          List.map_cons, ih]
      · rw [if_neg (by simpa [sku_withCreated] using h), if_neg (by simpa using h), ih]

lemma lastUpsert_map_withCreated (ps : List PRow) (t : ℤ) (s : String) :
    lastUpsert (ps.map (fun r => withCreated r t)) s =
      (lastUpsert ps s).map (fun r => withCreated r t) := by
  rw [lastUpsert, lastUpsert]
  by_cases hs : s = ""
  · rw [if_pos hs, if_pos hs]; rfl
  · rw [if_neg hs, if_neg hs, filter_sku_map_withCreated, getLast?_map_opt]

lemma charMap_map_withCreated (ps : List PRow) (t : ℤ) (q : PRow) :
    charMap (ps.map (fun r => withCreated r t)) q = charMap ps q := by
  rw [charMap, charMap, lastUpsert_map_withCreated]
  rcases hl : lastUpsert ps q.sku with _ | r2 <;> rfl

lemma extract_shift (nodes : List ProductNode) (t1 t2 : ℤ) :
    extractVariantRows nodes t2 =
      (extractVariantRows nodes t1).map (fun r => withCreated r t2) := by
  induction nodes with
  | nil => rfl
  | cons p l ih =>
      simp only [extractVariantRows, List.map_cons, List.flatten_cons,
        List.map_append] at ih ⊢
      rw [ih, List.map_map]
      congr 1

/-- Re-running the product persistence with the same fetched payload (at a
later run time t2) leaves the products table exactly as the first run left
it: every payload key is already present, so the second pass only rewrites
each row with the values it already has. -/
lemma products_phase_idem (rows : List PRow) (nodes : List ProductNode) (t1 t2 : ℤ) :
    persistProducts (persistProducts rows (extractVariantRows nodes t1))
        (extractVariantRows nodes t2) =
      persistProducts rows (extractVariantRows nodes t1) := by
  rw [extract_shift nodes t1 t2]
  have hpres : ∀ r ∈ (extractVariantRows nodes t1).map (fun r => withCreated r t2),
      ¬ r.sku = "" → HasSku (persistProducts rows (extractVariantRows nodes t1)) r.sku := by
    intro r hr hs
    obtain ⟨r0, hr0, rfl⟩ := List.mem_map.mp hr
    rw [sku_withCreated] at hs ⊢
    exact hasSku_persist_of_mem (extractVariantRows nodes t1) rows r0 hr0 hs
  rw [persist_char ((extractVariantRows nodes t1).map (fun r => withCreated r t2))
    (persistProducts rows (extractVariantRows nodes t1)) hpres]
  have h1 : ∀ q ∈ persistProducts rows (extractVariantRows nodes t1),
      charMap ((extractVariantRows nodes t1).map (fun r => withCreated r t2)) q = q := by
    intro q hq
    rw [charMap_map_withCreated]
    exact charMap_fixed (extractVariantRows nodes t1) rows q hq
  rw [List.map_congr_left h1, List.map_id']

/-! ## Order line-item insert key accounting -/

/-- Some row with this (order_id, sku) pair is present. -/
def HasOrderKey (rows : List LineItemRow) (oid s : String) : Prop :=
  ∃ q ∈ rows, q.order_id = oid ∧ q.sku = s

lemma hasOrderKey_any (rows : List LineItemRow) (oid s : String) :
    rows.any (fun q => decide (q.order_id = oid ∧ q.sku = s)) = true ↔
      HasOrderKey rows oid s := by
  simp [HasOrderKey, List.any_eq_true]

lemma insertLineItem_of_has (rows : List LineItemRow) (r : LineItemRow)
    (h : HasOrderKey rows r.order_id r.sku) : insertLineItem rows r = rows := by
  rw [insertLineItem, if_pos ((hasOrderKey_any rows r.order_id r.sku).mpr h)]

lemma insertLineItem_of_not (rows : List LineItemRow) (r : LineItemRow)
    (h : ¬ HasOrderKey rows r.order_id r.sku) :
    insertLineItem rows r = rows ++ [r] := by
  rw [insertLineItem,
    if_neg (fun hc => h ((hasOrderKey_any rows r.order_id r.sku).mp hc))]

lemma hasOrderKey_insert_mono (rows : List LineItemRow) (r : LineItemRow)
    (oid s : String) (h : HasOrderKey rows oid s) :
    HasOrderKey (insertLineItem rows r) oid s := by
  obtain ⟨q, hq, hk⟩ := h
  rw [insertLineItem]
  split
  · exact ⟨q, hq, hk⟩
  · exact ⟨q, List.mem_append.mpr (Or.inl hq), hk⟩

lemma hasOrderKey_insert_self (rows : List LineItemRow) (r : LineItemRow) :
    HasOrderKey (insertLineItem rows r) r.order_id r.sku := by
  rw [insertLineItem]
  split
  · rename_i hany
    exact (hasOrderKey_any rows r.order_id r.sku).mp hany
  · exact ⟨r, List.mem_append.mpr (Or.inr (by simp)), rfl, rfl⟩

lemma lineFold_mono (mk : LineItemPayload → LineItemRow) (lis : List LineItemPayload) :
    ∀ (rows : List LineItemRow) (oid s : String), HasOrderKey rows oid s →
      HasOrderKey (lis.foldl (fun acc li =>
        if li.sku.trim = "" then acc else insertLineItem acc (mk li)) rows) oid s := by
  induction lis with
  | nil => intro _ _ _ h; exact h
  | cons li tl ih =>
      intro rows oid s h
      rw [List.foldl_cons]
      by_cases hli : li.sku.trim = ""
      · rw [if_pos hli]
        exact ih rows oid s h
      · rw [if_neg hli]
        exact ih _ oid s (hasOrderKey_insert_mono rows (mk li) oid s h)

lemma lineFold_establish (mk : LineItemPayload → LineItemRow) (oid : String)
    (hk : ∀ li, (mk li).order_id = oid ∧ (mk li).sku = li.sku.trim)
    (lis : List LineItemPayload) :
    ∀ (rows : List LineItemRow) (li : LineItemPayload), li ∈ lis → ¬ li.sku.trim = "" →
      HasOrderKey (lis.foldl (fun acc li =>
        if li.sku.trim = "" then acc else insertLineItem acc (mk li)) rows)
        oid li.sku.trim := by
  induction lis with
  | nil => intro _ _ h _; cases h
  | cons l0 tl ih =>
      intro rows li hmem hne
      rw [List.foldl_cons]
      rcases List.mem_cons.mp hmem with h | h
      · subst h
        rw [if_neg hne]
        have h0 := hasOrderKey_insert_self rows (mk li)
        rw [(hk li).1, (hk li).2] at h0
        exact lineFold_mono mk tl _ oid li.sku.trim h0
      · by_cases hli : l0.sku.trim = ""
        · rw [if_pos hli]
          exact ih rows li h hne
        · rw [if_neg hli]
          exact ih _ li h hne

lemma lineFold_length (mk : LineItemPayload → LineItemRow) (oid : String)
    (hk : ∀ li, (mk li).order_id = oid ∧ (mk li).sku = li.sku.trim)
    (lis : List LineItemPayload) :
    ∀ (rows : List LineItemRow),
      (∀ li ∈ lis, ¬ li.sku.trim = "" → HasOrderKey rows oid li.sku.trim) →
      (lis.foldl (fun acc li =>
        if li.sku.trim = "" then acc else insertLineItem acc (mk li)) rows).length =
        rows.length := by
  induction lis with
  | nil => intro _ _; rfl
  | cons l0 tl ih =>
      intro rows h
      rw [List.foldl_cons]
      by_cases hli : l0.sku.trim = ""
      · rw [if_pos hli]
        exact ih rows (fun li hm hne => h li (List.mem_cons_of_mem l0 hm) hne)
      · rw [if_neg hli]
        have hnoop : insertLineItem rows (mk l0) = rows :=
          insertLineItem_of_has rows (mk l0)
            (by rw [(hk l0).1, (hk l0).2]; exact h l0 (List.mem_cons_self l0 tl) hli)
        rw [hnoop]
        exact ih rows (fun li hm hne => h li (List.mem_cons_of_mem l0 hm) hne)

lemma persistOrders_mono (orders : List OrderPayload) (t : ℤ) :
    ∀ (rows : List LineItemRow) (oid s : String), HasOrderKey rows oid s →
      HasOrderKey (persistOrders rows orders t) oid s := by
  induction orders with
  | nil => intro _ _ _ h; exact h
  | cons o tl ih =>
      intro rows oid s h
      rw [persistOrders, List.foldl_cons]
      have h1 := lineFold_mono
        (fun li => ⟨o.id, li.sku.trim, li.quantity, 0, o.created_at.getD t⟩)
        o.line_items rows oid s h
      have h2 := ih _ oid s h1
      simp only [persistOrders] at h2
      exact h2

lemma persistOrders_establish (orders : List OrderPayload) (t : ℤ) :
    ∀ (rows : List LineItemRow) (o : OrderPayload) (li : LineItemPayload),
      o ∈ orders → li ∈ o.line_items → ¬ li.sku.trim = "" →
      HasOrderKey (persistOrders rows orders t) o.id li.sku.trim := by
  induction orders with
  | nil => intro _ _ _ h _ _; cases h
  | cons o0 tl ih =>
      intro rows o li hmo hmli hne
      rw [persistOrders, List.foldl_cons]
      rcases List.mem_cons.mp hmo with h | h
      · subst h
        have h1 := lineFold_establish
          (fun li => ⟨o.id, li.sku.trim, li.quantity, 0, o.created_at.getD t⟩)
          o.id (fun _ => ⟨rfl, rfl⟩) o.line_items rows li hmli hne
        have h2 := persistOrders_mono tl t _ o.id li.sku.trim h1
        simp only [persistOrders] at h2
        exact h2
      · have h2 := ih (o0.line_items.foldl (fun acc li =>
            if li.sku.trim = "" then acc else insertLineItem acc
              ⟨o0.id, li.sku.trim, li.quantity, 0, o0.created_at.getD t⟩) rows)
          o li h hmli hne
        simp only [persistOrders] at h2
        exact h2

lemma lineFold_noop (mk : LineItemPayload → LineItemRow) (oid : String)
    (hk : ∀ li, (mk li).order_id = oid ∧ (mk li).sku = li.sku.trim)
    (lis : List LineItemPayload) :
    ∀ (rows : List LineItemRow),
      (∀ li ∈ lis, ¬ li.sku.trim = "" → HasOrderKey rows oid li.sku.trim) →
      lis.foldl (fun acc li =>
        if li.sku.trim = "" then acc else insertLineItem acc (mk li)) rows = rows := by
  induction lis with
  | nil => intro _ _; rfl
  | cons l0 tl ih =>
      intro rows h
      rw [List.foldl_cons]
      by_cases hli : l0.sku.trim = ""
      · rw [if_pos hli]
        exact ih rows (fun li hm hne => h li (List.mem_cons_of_mem l0 hm) hne)
      · rw [if_neg hli]
        have hnoop : insertLineItem rows (mk l0) = rows :=
          insertLineItem_of_has rows (mk l0)
            (by rw [(hk l0).1, (hk l0).2]; exact h l0 (List.mem_cons_self l0 tl) hli)
        rw [hnoop]
        exact ih rows (fun li hm hne => h li (List.mem_cons_of_mem l0 hm) hne)

/-- Re-running the order-line insertion with payload whose (order_id, sku)
pairs are all present is a complete no-op: every insert skips on conflict. -/
lemma persistOrders_noop (orders : List OrderPayload) (t : ℤ) :
    ∀ (rows : List LineItemRow),
      (∀ o ∈ orders, ∀ li ∈ o.line_items, ¬ li.sku.trim = "" →
        HasOrderKey rows o.id li.sku.trim) →
      persistOrders rows orders t = rows := by
  induction orders with
  | nil => intro _ _; rfl
  | cons o0 tl ih =>
      intro rows h
      rw [persistOrders, List.foldl_cons]
      have hinner := lineFold_noop
        (fun li => ⟨o0.id, li.sku.trim, li.quantity, 0, o0.created_at.getD t⟩)
        o0.id (fun _ => ⟨rfl, rfl⟩) o0.line_items rows
        (fun li hm hne => h o0 (List.mem_cons_self o0 tl) li hm hne)
      rw [hinner]
      have h2 := ih rows (fun o hmo li hm hne => h o (List.mem_cons_of_mem o0 hmo) li hm hne)
      simp only [persistOrders] at h2
      exact h2

/-- A fetched payload with one inventory item that resolves to a SKU (the
item carries a sku directly, as the webhook-style payloads do) and one
well-formed order. -/
def demoResolvablePayload : FetchedPayload :=
  ⟨[], [⟨none, some "A-1", some "loc-1", some 5⟩],
    [⟨"o1", some 0, [⟨"A-1", 1, 0⟩]⟩]⟩

/-- C3: against the schema 001_init.sql actually creates, the inventory
upsert statement never updates in place — it raises 42P10 on every
execution (no unique constraint matches its ON CONFLICT target), so the
persistence step aborts at the first inventory item that resolves to a SKU,
before any order insert executes; concretely it does so on
`demoResolvablePayload` from an empty database. The claim's described
mechanism (in-place inventory upsert) is therefore not what the code does. -/
theorem persistence_step_aborts_on_inventory_upsert :
    (∀ (rows : List InvRow) (r : InvRow),
      upsertInventoryE rows r = .error .noMatchingUniqueConstraint) ∧
    persistAllE ⟨[], [], []⟩ demoResolvablePayload 0 =
      .error .noMatchingUniqueConstraint := by
  constructor
  · intro rows r
    rw [upsertInventoryE, if_neg (by decide)]
  · rfl

/-! ## Uniqueness of (order_id, sku) -/

/-- No two stored rows share an (order_id, sku) pair. -/
def UniqueOrders (rows : List LineItemRow) : Prop :=
  rows.Pairwise (fun a b => ¬ (a.order_id = b.order_id ∧ a.sku = b.sku))

/-- How many stored rows carry the (order_id, sku) pair. -/
def countKey (rows : List LineItemRow) (oid s : String) : ℕ :=
  (rows.filter (fun q => decide (q.order_id = oid ∧ q.sku = s))).length

lemma uniqueOrders_insert (rows : List LineItemRow) (r : LineItemRow)
    (h : UniqueOrders rows) : UniqueOrders (insertLineItem rows r) := by
  rw [insertLineItem]
  split
  · exact h
  · rename_i hany
    rw [UniqueOrders, List.pairwise_append]
    refine ⟨h, List.pairwise_singleton _ _, ?_⟩
    intro a ha b hb
    simp only [List.mem_singleton] at hb
    intro hk
    rw [hb] at hk
    exact absurd ((hasOrderKey_any rows r.order_id r.sku).mpr ⟨a, ha, hk⟩)
      (by simpa using hany)

lemma uniqueOrders_lineFold (mk : LineItemPayload → LineItemRow)
    (lis : List LineItemPayload) :
    ∀ (rows : List LineItemRow), UniqueOrders rows →
      UniqueOrders (lis.foldl (fun acc li =>
        if li.sku.trim = "" then acc else insertLineItem acc (mk li)) rows) := by
  induction lis with
  | nil => intro _ h; exact h
  | cons l0 tl ih =>
      intro rows h
      rw [List.foldl_cons]
      by_cases hli : l0.sku.trim = ""
      · rw [if_pos hli]
        exact ih rows h
      · rw [if_neg hli]
        exact ih _ (uniqueOrders_insert rows (mk l0) h)

lemma uniqueOrders_persistOrders (orders : List OrderPayload) (t : ℤ) :
    ∀ (rows : List LineItemRow), UniqueOrders rows →
      UniqueOrders (persistOrders rows orders t) := by
  induction orders with
  | nil => intro _ h; exact h
  | cons o0 tl ih =>
      intro rows h
      rw [persistOrders, List.foldl_cons]
      have h1 := uniqueOrders_lineFold
        (fun li => ⟨o0.id, li.sku.trim, li.quantity, 0, o0.created_at.getD t⟩)
        o0.line_items rows h
      have h2 := ih _ h1
      simp only [persistOrders] at h2
      exact h2

lemma countKey_le_one (rows : List LineItemRow) (oid s : String)
    (h : UniqueOrders rows) : countKey rows oid s ≤ 1 := by
  induction rows with
  | nil => simp [countKey]
  | cons a tl ih =>
      rw [UniqueOrders, List.pairwise_cons] at h
      obtain ⟨ha, htl⟩ := h
      rw [countKey, List.filter_cons]
      by_cases hk : a.order_id = oid ∧ a.sku = s
      · rw [if_pos (by simpa using hk)]
        have hnil : tl.filter (fun q => decide (q.order_id = oid ∧ q.sku = s)) = [] := by
          rw [List.filter_eq_nil_iff]
          intro q hq hdec
          rw [decide_eq_true_eq] at hdec
          exact ha q hq ⟨hk.1.trans hdec.1.symm, hk.2.trans hdec.2.symm⟩
        rw [hnil]
        simp
      · rw [if_neg (by simpa using hk)]
        exact ih htl

lemma insert_insert_same_key (rows : List LineItemRow) (r r' : LineItemRow)
    (h1 : r.order_id = r'.order_id) (h2 : r.sku = r'.sku) :
    insertLineItem (insertLineItem rows r) r' = insertLineItem rows r := by
  apply insertLineItem_of_has
  have h := hasOrderKey_insert_self rows r
  rw [h1, h2] at h
  exact h

lemma countKey_insert_new (rows : List LineItemRow) (r : LineItemRow)
    (h0 : countKey rows r.order_id r.sku = 0) :
    countKey (insertLineItem rows r) r.order_id r.sku = 1 := by
  have hnot : ¬ HasOrderKey rows r.order_id r.sku := by
    rintro ⟨q, hq, hk⟩
    have hmem : q ∈ rows.filter
        (fun q => decide (q.order_id = r.order_id ∧ q.sku = r.sku)) :=
      List.mem_filter.mpr ⟨hq, by simpa using hk⟩
    rw [countKey, List.length_eq_zero] at h0
    rw [h0] at hmem
    cases hmem
  rw [insertLineItem_of_not rows r hnot, countKey, List.filter_append]
  rw [countKey] at h0
  rw [List.length_append, h0]
  simp

/-- C4: (order_id, SKU) pairs stay unique across any sequence of sync runs
and webhook ingestions (the migration's unique index backs the skip-on-
conflict insert); inserting a second line item with the same pair is a
no-op, leaving exactly one stored row. -/
theorem order_pair_unique :
    ordersLineitemsUniqueKeys.any (fun k => sameColumnSet k ["order_id", "sku"]) = true ∧
    (∀ (rows : List LineItemRow) (orders : List OrderPayload) (t : ℤ),
      UniqueOrders rows → UniqueOrders (persistOrders rows orders t)) ∧
    (∀ (rows : List LineItemRow) (o : OrderPayload) (t : ℤ),
      UniqueOrders rows → UniqueOrders (webhookIngest rows o t)) ∧
    (∀ (rows : List LineItemRow) (oid s : String),
      UniqueOrders rows → countKey rows oid s ≤ 1) ∧
    (∀ (rows : List LineItemRow) (r r' : LineItemRow),
      r.order_id = r'.order_id → r.sku = r'.sku →
      insertLineItem (insertLineItem rows r) r' = insertLineItem rows r) ∧
    (∀ (rows : List LineItemRow) (r r' : LineItemRow),
      r.order_id = r'.order_id → r.sku = r'.sku →
      countKey rows r.order_id r.sku = 0 →
      countKey (insertLineItem (insertLineItem rows r) r') r.order_id r.sku = 1) := by
  refine ⟨by decide, ?_, ?_, ?_, ?_, ?_⟩
  · intro rows orders t h
    exact uniqueOrders_persistOrders orders t rows h
  · intro rows o t h
    exact uniqueOrders_lineFold
      (fun li => ⟨o.id, li.sku.trim, li.quantity, li.price, o.created_at.getD t⟩)
      o.line_items rows h
  · intro rows oid s h
    exact countKey_le_one rows oid s h
  · intro rows r r' h1 h2
    exact insert_insert_same_key rows r r' h1 h2
  · intro rows r r' h1 h2 h0
    rw [insert_insert_same_key rows r r' h1 h2]
    exact countKey_insert_new rows r h0

/-- Witness for C4: a concrete sync run keeps uniqueness from an empty
table, and two inserts of the same ("o1", "S") pair store exactly one row. -/
theorem order_pair_unique_witness :
    UniqueOrders (persistOrders [] [⟨"o1", some 0, [⟨"S", 1, 0⟩]⟩] 0) ∧
    countKey (insertLineItem (insertLineItem [] ⟨"o1", "S", 1, 0, 0⟩)
      ⟨"o1", "S", 2, 5, 0⟩) "o1" "S" = 1 :=
  ⟨order_pair_unique.2.1 [] [⟨"o1", some 0, [⟨"S", 1, 0⟩]⟩] 0 List.Pairwise.nil,
    order_pair_unique.2.2.2.2.2 [] ⟨"o1", "S", 1, 0, 0⟩ ⟨"o1", "S", 2, 5, 0⟩ rfl rfl rfl⟩

/-- C6: 001_init.sql creates no unique index over (sku, location_id) on
inventory_levels — the ON CONFLICT (sku, location_id) target of the
inventory upsert matches no unique constraint of the table (Postgres
rejects such a statement outright), and the schema as created allows two
rows with the same (sku, location) pair. -/
theorem inventory_unique_index_missing :
    inventoryLevelsUniqueKeys.any
      (fun k => sameColumnSet k inventoryConflictTarget) = false ∧
    (plainInsert (plainInsert [] ⟨"A-1", "loc-1", 5, 0⟩) ⟨"A-1", "loc-1", 7, 1⟩).length = 2 ∧
    ((plainInsert (plainInsert [] ⟨"A-1", "loc-1", 5, 0⟩) ⟨"A-1", "loc-1", 7, 1⟩).filter
      (fun q => decide (q.sku = "A-1" ∧ q.location_id = "loc-1"))).length = 2 := by
  refine ⟨by decide, by decide, by decide⟩

/-! ## The ETL run pipeline (run-etl.js handler, etl_worker.js main) -/

/-- An edge of a GraphQL products page (cursor + node). -/
structure PEdge where
  cursor : String
  node : ProductNode
  deriving Repr, DecidableEq

/-- A GraphQL products page. -/
structure ProductsPage where
  edges : List PEdge
  hasNextPage : Bool
  deriving Repr, DecidableEq

/-- One GraphQL response: HTTP status and page (axios network errors and
non-2xx statuses both land in the status ≠ 200 branch). -/
structure GqlResp where
  status : Nat
  page : ProductsPage
  deriving Repr, DecidableEq

/-- Errors the products stage can raise (run-etl.js lines 92-100): a failed
page fetch, or the TypeError from reading `edges[edges.length - 1].cursor`
on an empty edge list. -/
inductive EtlErr where
  | gqlFailed (status : Nat)
  | emptyPageCursor
  deriving Repr, DecidableEq

/-- The thrown error's message, as the outer catch stringifies it. -/
def errMsg : EtlErr → String
  | .gqlFailed st => "Shopify productsPage failed with status " ++ toString st
  | .emptyPageCursor => "Cannot read cursor of undefined"

/-- The product pagination loop of run-etl.js lines 88-102, reading the
n-th GraphQL response from `api`: push the page's nodes, stop when
hasNextPage is false, read the next cursor from the last edge (a TypeError
when the edge list is empty), break past 3000 accumulated products. The
source loop has no fuel; `fuel` bounds the recursion here and the caller
passes 4000, above the iteration bound the 3000-product cap enforces
(every continuing iteration adds at least one product), so the
fuel-exhausted branch is unreachable. -/
def productsLoop (api : Nat → GqlResp) :
    Nat → Nat → List ProductNode → Except EtlErr (List ProductNode)
  | 0, _, acc => .ok acc
  | fuel + 1, callIdx, acc =>
    let resp := api callIdx
    if resp.status = 200 then
      let acc2 := acc ++ resp.page.edges.map (fun e => e.node)
      if resp.page.hasNextPage then
        match resp.page.edges with
        | [] => .error .emptyPageCursor
        | _ :: _ =>
          if acc2.length > 3000 then .ok acc2
          else productsLoop api fuel (callIdx + 1) acc2
      else .ok acc2
    else .error (.gqlFailed resp.status)

/-- The whole products fetch. -/
def productsFetch (api : Nat → GqlResp) : Except EtlErr (List ProductNode) :=
  productsLoop api 4000 0 []

/-- One inventory_levels REST response: status, items, and whether a Link
header with rel="next" is present. -/
structure InvResp where
  status : Nat
  levels : List InvItem
  hasNext : Bool
  deriving Repr, DecidableEq

/-- The inventory next-page loop of run-etl.js lines 159-167 (at most 10
next-pages); a failing call throws into the surrounding catch, which keeps
what was accumulated so far. -/
def invLoop (api : Nat → InvResp) : Nat → Nat → List InvItem → List InvItem
  | 0, _, acc => acc
  | fuel + 1, callIdx, acc =>
    let resp := api callIdx
    if resp.status = 200 then
      if resp.hasNext then invLoop api fuel (callIdx + 1) (acc ++ resp.levels)
      else acc ++ resp.levels
    else acc

/-- The inventory stage of run-etl.js lines 148-170: `invLevels` is declared
outside the try, so a failed initial call leaves it empty and a failed
next-page call leaves the part fetched so far. -/
def invCollect (api : Nat → InvResp) : List InvItem :=
  let r0 := api 0
  if r0.status = 200 then
    if r0.hasNext then invLoop api 10 1 r0.levels else r0.levels
  else []

/-- One orders REST response. -/
structure OrdResp where
  status : Nat
  orders : List OrderPayload
  hasNext : Bool
  deriving Repr, DecidableEq

/-- The orders next-page loop of run-etl.js lines 212-221: pages while a
next link exists, fewer than 40 pages and fewer than 20000 accumulated
orders; a failing call throws into the catch, keeping the accumulator. -/
def ordersLoop (api : Nat → OrdResp) :
    Nat → Nat → List OrderPayload → Bool → List OrderPayload
  | 0, _, acc, _ => acc
  | fuel + 1, callIdx, acc, hasNext =>
    if hasNext ∧ acc.length < 20000 then
      let resp := api callIdx
      if resp.status = 200 then
        ordersLoop api fuel (callIdx + 1) (acc ++ resp.orders) resp.hasNext
      else acc
    else acc

/-- The orders stage of run-etl.js lines 199-225: `orders` is declared
outside the try, so a failed initial call leaves the order set empty
("orders absent will simply reduce metrics"). -/
def ordersCollect (api : Nat → OrdResp) : List OrderPayload :=
  let r0 := api 0
  if r0.status = 200 then ordersLoop api 40 1 r0.orders r0.hasNext
  else []

/-- The remote responses one run of the handler sees. -/
structure EtlEnv where
  productsApi : Nat → GqlResp
  inventoryApi : Nat → InvResp
  ordersApi : Nat → OrdResp

/-- What one handler invocation produces: HTTP status and plain-text body,
the database state it leaves, the metrics and alerts it computed, and
which stages past the products fetch executed. -/
structure RunOutcome where
  status : Nat
  body : String
  db : DB
  metrics : List (String × Metrics)
  alerts : List Alert
  ranInventory : Bool
  ranOrders : Bool
  ranMetrics : Bool
  deriving Repr, DecidableEq

/-- The run-etl.js handler pipeline: products fetch (a thrown error goes to
the outer catch, status 500 with a plain-text message, nothing else runs),
then product upserts, inventory fetch + upserts (under the 001_init.sql
schema the upsert statement raises 42P10 at the first item that resolves
to a SKU; that error also lands in the outer catch, with the products
already written — there is no enclosing transaction — and the orders and
metrics stages never executing), then orders fetch + inserts, then metrics
and alerts for every SKU of the products table. `t` is the run's clock
reading (created_at values and the metrics date). The locations stage is
omitted: it only writes the locations table, which no claim reads. -/
def runEtl (env : EtlEnv) (db0 : DB) (t : ℤ) : RunOutcome :=
  match productsFetch env.productsApi with
  | .error e =>
      { status := 500, body := "ETL failed: " ++ errMsg e, db := db0,
        metrics := [], alerts := [], ranInventory := false, ranOrders := false,
        ranMetrics := false }
  | .ok nodes =>
      let prods := persistProducts db0.products (extractVariantRows nodes t)
      let invItems := invCollect env.inventoryApi
      match persistInventoryE prods t db0.inventory invItems with
      | .error e =>
          { status := 500, body := "ETL failed: " ++ pgErrMsg e,
            db := ⟨prods, db0.inventory, db0.orders⟩,
            metrics := [], alerts := [], ranInventory := true,
            ranOrders := false, ranMetrics := false }
      | .ok inv =>
          let orders := ordersCollect env.ordersApi
          let ords := persistOrders db0.orders orders t
          let metrics := prods.map (fun p => (p.sku, computeSkuMetrics ords inv p.sku t))
          let alerts := metrics.filterMap (fun x => alertOf x.1 x.2)
          { status := 200,
            body := "ETL completed (products " ++ toString nodes.length ++ ", orders "
              ++ toString orders.length ++ ")",
            db := ⟨prods, inv, ords⟩, metrics := metrics, alerts := alerts,
            ranInventory := true, ranOrders := true, ranMetrics := true }

/-- The remote responses one worker run sees; the products and inventory
stages are represented by their results (their pagination mirrors the API
route's). -/
structure WorkerEnv where
  productsResult : Except String Unit
  inventoryResult : Except String Unit
  ordersApi : Nat → OrdResp

/-- The worker orders next-page loop (etl_worker.js lines 189-197): caps of
200 pages and 50000 orders, and a non-200 next page breaks with partials. -/
def workerOrdersLoop (api : Nat → OrdResp) :
    Nat → Nat → List OrderPayload → Bool → List OrderPayload
  | 0, _, acc, _ => acc
  | fuel + 1, callIdx, acc, hasNext =>
    if hasNext ∧ acc.length < 50000 then
      let resp := api callIdx
      if resp.status = 200 then
        workerOrdersLoop api fuel (callIdx + 1) (acc ++ resp.orders) resp.hasNext
      else acc
    else acc

/-- etl_worker.js fetchAndUpsertOrders lines 176-197: unlike the API route,
a non-200 initial response THROWS (`throw new Error('orders.json failed')`)
instead of degrading. -/
def fetchAndUpsertOrders (api : Nat → OrdResp) : Except String (List OrderPayload) :=
  let r0 := api 0
  if r0.status = 200 then .ok (workerOrdersLoop api 200 1 r0.orders r0.hasNext)
  else .error "orders.json failed"

/-- What one worker run produces. -/
structure WorkerOutcome where
  ok : Bool
  ranMetrics : Bool
  metrics : List (String × Metrics)
  deriving Repr, DecidableEq

/-- etl_worker.js main lines 260-282: the four stages run inside one try;
any thrown error lands in the catch (which logs and posts a failure), so
computeMetrics never runs after a failed stage. The worker's line-item
insert carries the payload price. -/
def workerMain (env : WorkerEnv) (db0 : DB) (t : ℤ) : WorkerOutcome :=
  match env.productsResult with
  | .error _ => ⟨false, false, []⟩
  | .ok _ =>
    match env.inventoryResult with
    | .error _ => ⟨false, false, []⟩
    | .ok _ =>
      match fetchAndUpsertOrders env.ordersApi with
      | .error _ => ⟨false, false, []⟩
      | .ok orders =>
        let ords := orders.foldl (fun acc o =>
          o.line_items.foldl (fun acc2 li =>
            if li.sku.trim = "" then acc2
            else insertLineItem acc2
              ⟨o.id, li.sku.trim, li.quantity, li.price, o.created_at.getD t⟩) acc)
          db0.orders
        ⟨true, true,
          db0.products.map (fun p => (p.sku, computeSkuMetrics ords db0.inventory p.sku t))⟩

lemma productsLoop_fail (api : Nat → GqlResp) (fuel callIdx : Nat)
    (acc : List ProductNode) (h : ¬ (api callIdx).status = 200) :
    productsLoop api (fuel + 1) callIdx acc = .error (.gqlFailed (api callIdx).status) := by
  rw [productsLoop]
  simp only [if_neg h]

/-- C8: a non-success product-fetch response aborts the whole run: the
products stage raises, no inventory, orders or metrics stage executes, the
database is untouched, and the endpoint answers 500 with a plain-text
error description. -/
theorem product_fetch_failure_aborts :
    (∀ (api : Nat → GqlResp) (fuel callIdx : Nat) (acc : List ProductNode),
      ¬ (api callIdx).status = 200 →
      productsLoop api (fuel + 1) callIdx acc = .error (.gqlFailed (api callIdx).status)) ∧
    (∀ api : Nat → GqlResp, ¬ (api 0).status = 200 →
      productsFetch api = .error (.gqlFailed (api 0).status)) ∧
    (∀ (env : EtlEnv) (db : DB) (t : ℤ) (e : EtlErr),
      productsFetch env.productsApi = .error e →
      (runEtl env db t).status = 500 ∧
      (runEtl env db t).body = "ETL failed: " ++ errMsg e ∧
      (runEtl env db t).db = db ∧
      (runEtl env db t).ranInventory = false ∧
      (runEtl env db t).ranOrders = false ∧
      (runEtl env db t).ranMetrics = false ∧
      (runEtl env db t).metrics = []) := by
  refine ⟨productsLoop_fail, ?_, ?_⟩
  · intro api h
    exact productsLoop_fail api 3999 0 [] h
  · intro env db t e h
    rw [runEtl, h]
    exact ⟨rfl, rfl, rfl, rfl, rfl, rfl, rfl⟩

/-- Inputs used by the run-model witnesses and counterexample. -/
def demoFailEnv : EtlEnv :=
  ⟨fun _ => ⟨500, ⟨[], false⟩⟩, fun _ => ⟨200, [], false⟩, fun _ => ⟨200, [], false⟩⟩

/-- An empty database. -/
def demoDb : DB := ⟨[], [], []⟩

/-- Witness for C8: a 500 products response makes the whole run answer 500
with the error text and no metrics stage. -/
theorem product_fetch_failure_aborts_witness :
    (runEtl demoFailEnv demoDb 0).status = 500 ∧
    (runEtl demoFailEnv demoDb 0).ranMetrics = false :=
  ⟨(product_fetch_failure_aborts.2.2 demoFailEnv demoDb 0 (.gqlFailed 500)
      (product_fetch_failure_aborts.2.1 demoFailEnv.productsApi (by decide))).1,
    (product_fetch_failure_aborts.2.2 demoFailEnv demoDb 0 (.gqlFailed 500)
      (product_fetch_failure_aborts.2.1 demoFailEnv.productsApi (by decide))).2.2.2.2.2.1⟩

/-- C10: a 200 page whose edge list is empty while hasNextPage is true makes
the product pagination loop throw (reading the next cursor off an empty
list) the moment it meets such a page, and when the first page is such the
whole run fails with the 500 error response — it neither keeps looping nor
continues with the products fetched so far. -/
theorem empty_page_with_next_throws :
    (∀ (api : Nat → GqlResp) (fuel callIdx : Nat) (acc : List ProductNode),
      (api callIdx).status = 200 → (api callIdx).page.edges = [] →
      (api callIdx).page.hasNextPage = true →
      productsLoop api (fuel + 1) callIdx acc = .error .emptyPageCursor) ∧
    (∀ (env : EtlEnv) (db : DB) (t : ℤ),
      (env.productsApi 0).status = 200 → (env.productsApi 0).page.edges = [] →
      (env.productsApi 0).page.hasNextPage = true →
      (runEtl env db t).status = 500 ∧
      (runEtl env db t).body = "ETL failed: " ++ errMsg .emptyPageCursor ∧
      (runEtl env db t).ranMetrics = false) := by
  have hloop : ∀ (api : Nat → GqlResp) (fuel callIdx : Nat) (acc : List ProductNode),
      (api callIdx).status = 200 → (api callIdx).page.edges = [] →
      (api callIdx).page.hasNextPage = true →
      productsLoop api (fuel + 1) callIdx acc = .error .emptyPageCursor := by
    intro api fuel callIdx acc h1 h2 h3
    rw [productsLoop]
    simp only [if_pos h1, h2, h3, if_true, List.map_nil, List.append_nil]
  refine ⟨hloop, ?_⟩
  intro env db t h1 h2 h3
  have hfetch : productsFetch env.productsApi = .error .emptyPageCursor :=
    hloop env.productsApi 3999 0 [] h1 h2 h3
  rw [runEtl, hfetch]
  exact ⟨rfl, rfl, rfl⟩

/-- Environment whose first products page is empty but signals a next page. -/
def demoEmptyPageEnv : EtlEnv :=
  ⟨fun _ => ⟨200, ⟨[], true⟩⟩, fun _ => ⟨200, [], false⟩, fun _ => ⟨200, [], false⟩⟩

/-- Witness for C10 at a concrete environment. -/
theorem empty_page_with_next_throws_witness :
    (runEtl demoEmptyPageEnv demoDb 0).status = 500 ∧
    (runEtl demoEmptyPageEnv demoDb 0).ranMetrics = false :=
  ⟨(empty_page_with_next_throws.2 demoEmptyPageEnv demoDb 0 rfl rfl rfl).1,
    (empty_page_with_next_throws.2 demoEmptyPageEnv demoDb 0 rfl rfl rfl).2.2⟩

lemma computeSkuMetrics_no_items (inv : List InvRow) (sku : String) (t : ℤ) :
    (computeSkuMetrics [] inv sku t).rolling30 = 0 ∧
    (computeSkuMetrics [] inv sku t).rolling7 = 0 ∧
    (computeSkuMetrics [] inv sku t).days_of_cover = none := by
  have hd : ∀ d, dailyQty [] sku d = 0 := fun _ => rfl
  have h30 : (salesSeries [] sku t).foldl (· + ·) 0 = 0 := by
    rw [salesSeries_sum]
    simp [hd]
  have h7 : ((salesSeries [] sku t).drop 23).foldl (· + ·) 0 = 0 := by
    rw [salesSeries_drop_sum]
    simp [hd]
  refine ⟨?_, ?_, ?_⟩
  · show (salesSeries [] sku t).foldl (· + ·) 0 / 30 = 0
    rw [h30]; norm_num
  · show ((salesSeries [] sku t).drop 23).foldl (· + ·) 0 / 7 = 0
    rw [h7]; norm_num
  · show (if (salesSeries [] sku t).foldl (· + ·) 0 / 30 > 0 then _ else none) = none
    rw [h30]
    norm_num

/-- Counterexample to C7 as stated: in the worker ETL (etl_worker.js, one of
the claim's two cited code paths) a failed orders fetch aborts the run in
main's catch — computeMetrics does not execute, contradicting "the metrics
step still executes for every SKU". -/
theorem orders_failure_worker_counterexample :
    (workerMain ⟨.ok (), .ok (), fun _ => ⟨500, [], false⟩⟩
      ⟨[⟨"A-1", "Tee", "p1", none, none, none, "h", 0, 0⟩], [], []⟩ 0).ranMetrics
      = false := rfl

lemma upsertInventoryE_error (rows : List InvRow) (r : InvRow) :
    upsertInventoryE rows r = .error .noMatchingUniqueConstraint := by
  rw [upsertInventoryE, if_neg (by decide)]

/-- Under the 001_init.sql schema the inventory persistence errors exactly
when some fetched item resolves to a SKU (the first executed upsert
statement raises 42P10); with no resolvable item no statement executes. -/
lemma persistInventoryE_error_iff (items : List InvItem) :
    ∀ (prods : List PRow) (t : ℤ) (rows : List InvRow),
      (∃ e, persistInventoryE prods t rows items = .error e) ↔
        ∃ item ∈ items, (resolveSku prods item).isSome = true := by
  induction items with
  | nil =>
      intro prods t rows
      constructor
      · rintro ⟨e, he⟩
        rw [persistInventoryE] at he
        cases he
      · rintro ⟨item, h, _⟩
        cases h
  | cons i rest ih =>
      intro prods t rows
      rw [persistInventoryE]
      rcases hres : resolveSku prods i with _ | s
      · simp only
        rw [ih prods t rows]
        constructor
        · rintro ⟨item, hm, hsome⟩
          exact ⟨item, List.mem_cons_of_mem i hm, hsome⟩
        · rintro ⟨item, hm, hsome⟩
          rcases List.mem_cons.mp hm with h | h
          · rw [h, hres] at hsome
            cases hsome
          · exact ⟨item, h, hsome⟩
      · simp only [upsertInventoryE_error rows ⟨s, locOf i, i.available.getD 0, t⟩]
        constructor
        · intro _
          exact ⟨i, List.mem_cons_self i rest, by rw [hres]; rfl⟩
        · intro _
          exact ⟨.noMatchingUniqueConstraint, trivial⟩

lemma ordersLoop_call_fail (api : Nat → OrdResp) (fuel callIdx : Nat)
    (acc : List OrderPayload) (hN : Bool) (h : ¬ (api callIdx).status = 200) :
    ordersLoop api (fuel + 1) callIdx acc hN = acc := by
  rw [ordersLoop]
  split
  · rw [if_neg h]
  · rfl

/-- C7 amended: in the API-route ETL the inventory stage raises 42P10
exactly when some fetched inventory item resolves to a SKU, and such a run
aborts (500) before the orders and metrics stages; when the inventory stage
completes, a failed initial orders fetch leaves the order set empty, no
exception propagates (the run answers 200), the metrics step runs for every
SKU of the products table, and with no stored sales the rolling averages
are zero and cover is null, while a failure on the next orders page keeps
the initial page's orders; in the worker ETL an orders-fetch failure aborts
the run before computeMetrics. -/
theorem orders_failure_degrades_amended :
    (∀ (prods : List PRow) (t : ℤ) (rows : List InvRow) (items : List InvItem),
      (∃ e, persistInventoryE prods t rows items = .error e) ↔
        ∃ item ∈ items, (resolveSku prods item).isSome = true) ∧
    (∀ (env : EtlEnv) (db : DB) (t : ℤ) (nodes : List ProductNode) (e : PgErr),
      productsFetch env.productsApi = .ok nodes →
      persistInventoryE (persistProducts db.products (extractVariantRows nodes t)) t
        db.inventory (invCollect env.inventoryApi) = .error e →
      (runEtl env db t).status = 500 ∧
      (runEtl env db t).ranOrders = false ∧
      (runEtl env db t).ranMetrics = false) ∧
    (∀ (env : EtlEnv) (db : DB) (t : ℤ) (nodes : List ProductNode) (inv2 : List InvRow),
      productsFetch env.productsApi = .ok nodes →
      persistInventoryE (persistProducts db.products (extractVariantRows nodes t)) t
        db.inventory (invCollect env.inventoryApi) = .ok inv2 →
      ¬ (env.ordersApi 0).status = 200 →
      ordersCollect env.ordersApi = [] ∧
      (runEtl env db t).status = 200 ∧
      (runEtl env db t).ranMetrics = true ∧
      (runEtl env db t).metrics = (runEtl env db t).db.products.map (fun p =>
        (p.sku, computeSkuMetrics (runEtl env db t).db.orders
          (runEtl env db t).db.inventory p.sku t)) ∧
      (db.orders = [] → ∀ x ∈ (runEtl env db t).metrics,
        x.2.rolling30 = 0 ∧ x.2.rolling7 = 0 ∧ x.2.days_of_cover = none)) ∧
    (∀ (api : Nat → OrdResp), (api 0).status = 200 → ¬ (api 1).status = 200 →
      ordersCollect api = (api 0).orders) ∧
    (∀ (env : WorkerEnv) (db : DB) (t : ℤ),
      ¬ (env.ordersApi 0).status = 200 →
      (workerMain env db t).ranMetrics = false ∧ (workerMain env db t).ok = false) := by
  refine ⟨fun prods t rows items => persistInventoryE_error_iff items prods t rows,
    ?_, ?_, ?_, ?_⟩
  · intro env db t nodes e hp hinv
    refine ⟨?_, ?_, ?_⟩ <;> simp only [runEtl, hp, hinv]
  · intro env db t nodes inv2 hp hinv ho
    have hcoll : ordersCollect env.ordersApi = [] := by
      rw [ordersCollect]
      simp only [if_neg ho]
    refine ⟨hcoll, ?_, ?_, ?_, ?_⟩
    · simp only [runEtl, hp, hinv]
    · simp only [runEtl, hp, hinv]
    · simp only [runEtl, hp, hinv]
    · intro hdb x hx
      simp only [runEtl, hp, hinv] at hx
      rw [hcoll] at hx
      have hords : persistOrders db.orders [] t = db.orders := rfl
      rw [hords, hdb] at hx
      obtain ⟨p, _, rfl⟩ := List.mem_map.mp hx
      exact computeSkuMetrics_no_items _ p.sku t
  · intro api h0 h1
    have hstep := ordersLoop_call_fail api 39 1 (api 0).orders (api 0).hasNext h1
    simp only [ordersCollect, if_pos h0]
    exact hstep
  · intro env db t ho
    have hfail : fetchAndUpsertOrders env.ordersApi = .error "orders.json failed" := by
      rw [fetchAndUpsertOrders]
      simp only [if_neg ho]
    rcases hpr : env.productsResult with e | u
    · rw [workerMain, hpr]
      exact ⟨rfl, rfl⟩
    · rcases hir : env.inventoryResult with e | u'
      · rw [workerMain, hpr, hir]
        exact ⟨rfl, rfl⟩
      · rw [workerMain, hpr, hir, hfail]
        exact ⟨rfl, rfl⟩

/-- Environment whose products fetch succeeds (one empty final page), whose
inventory fetch yields no items, and whose orders fetch fails. -/
def demoOrdersFailEnv : EtlEnv :=
  ⟨fun _ => ⟨200, ⟨[], false⟩⟩, fun _ => ⟨200, [], false⟩, fun _ => ⟨500, [], false⟩⟩

/-- Environment whose inventory fetch yields one item resolvable to a SKU
(it carries a sku directly), so the inventory upsert statement executes. -/
def demoInvAbortEnv : EtlEnv :=
  ⟨fun _ => ⟨200, ⟨[], false⟩⟩,
    fun _ => ⟨200, [⟨none, some "A-1", some "loc-1", some 5⟩], false⟩,
    fun _ => ⟨200, [], false⟩⟩

/-- Orders API whose initial page succeeds with one order and signals a
next page, and whose next-page call fails. -/
def demoPartialOrdersApi : Nat → OrdResp :=
  fun n => if n = 0 then ⟨200, [⟨"o9", some 0, []⟩], true⟩ else ⟨500, [], false⟩

/-- Witness for the amended C7: with a failing orders fetch and an inventory
stage that completes, the API-route run answers 200 and runs metrics; with
a resolvable inventory item it aborts with 500 before metrics; a failing
next orders page keeps the initial page's orders; and the worker run aborts
with no metrics. -/
theorem orders_failure_degrades_amended_witness :
    (runEtl demoOrdersFailEnv demoDb 0).status = 200 ∧
    (runEtl demoOrdersFailEnv demoDb 0).ranMetrics = true ∧
    (runEtl demoInvAbortEnv demoDb 0).status = 500 ∧
    (runEtl demoInvAbortEnv demoDb 0).ranMetrics = false ∧
    ordersCollect demoPartialOrdersApi = (demoPartialOrdersApi 0).orders ∧
    (workerMain ⟨.ok (), .ok (), fun _ => ⟨500, [], false⟩⟩ demoDb 0).ranMetrics = false :=
  ⟨(orders_failure_degrades_amended.2.2.1 demoOrdersFailEnv demoDb 0 [] []
      (by with_unfolding_all rfl) (by with_unfolding_all rfl) (by decide)).2.1,
    (orders_failure_degrades_amended.2.2.1 demoOrdersFailEnv demoDb 0 [] []
      (by with_unfolding_all rfl) (by with_unfolding_all rfl) (by decide)).2.2.1,
    (orders_failure_degrades_amended.2.1 demoInvAbortEnv demoDb 0 []
      .noMatchingUniqueConstraint (by with_unfolding_all rfl)
      (by with_unfolding_all rfl)).1,
    (orders_failure_degrades_amended.2.1 demoInvAbortEnv demoDb 0 []
      .noMatchingUniqueConstraint (by with_unfolding_all rfl)
      (by with_unfolding_all rfl)).2.2,
    orders_failure_degrades_amended.2.2.2.1 demoPartialOrdersApi
      (by decide) (by decide),
    (orders_failure_degrades_amended.2.2.2.2 ⟨.ok (), .ok (), fun _ => ⟨500, [], false⟩⟩
      demoDb 0 (by decide)).1⟩

end InventoryAnalysis
